import Mathlib

/-!
Verification of the Octomind → Allure converter (`src/converter.ts`).

This file gives a shallow embedding of the core of the converter:

* the source (Octomind) and target (Allure) data models;
* the MD5-based history-id derivation (`generateHistoryId`);
* the status mapper (`convertStatus`), the step translator (`convertStep`
  and the step-threading loop inside `convertTestResult`);
* the record translator (`convertTestResult`);
* the cached test-case lookup (`fetchTestCase`);
* the keyset-pagination loop (`fetchAllTestReports`).

Modelling conventions:

* JavaScript numbers used as epoch-millisecond timestamps are modelled as
  `Option Nat`, where `none` stands for `NaN` (the value
  `new Date(malformed).getTime()` produces).  The date parser of the JS
  runtime is passed in as a parameter `parseDate : String → Option Nat`
  (`none` = invalid date).
* JavaScript string truthiness (`if (s)`, `a || b`) is modelled by
  `strTruthy` / `jsOrStr`: an optional string is truthy iff it is present
  and non-empty.
* `randomUUID()` and `Date.now()` are passed in as parameters.
* The remote service is modelled as a function from the call index and the
  cursor sent to the page returned, so any (even stateful) server behaviour
  is covered; the `while` loop is embedded with explicit fuel, returning
  `none` when the fuel is exhausted.
* `console.log`/`console.warn` calls are effects without influence on the
  returned data and are dropped.
-/

/-! ## Source data model (Octomind API types) -/

/-- A step of a test result (`OctomindTestStep`).  The status union type is
modelled as `String`, which is what `convertStatus` consumes. -/
structure OctomindTestStep where
  name : String
  status : String
  duration : Option Nat
  error : Option String
  deriving Repr, DecidableEq

/-- A test result (`OctomindTestResult`). -/
structure OctomindTestResult where
  id : String
  testTargetId : String
  testCaseId : String
  status : String
  traceUrl : Option String
  error : Option String
  stackTrace : Option String
  duration : Option Nat
  createdAt : Option String
  updatedAt : Option String
  steps : Option (List OctomindTestStep)
  deriving Repr, DecidableEq

/-- A test report (`OctomindTestReport`). -/
structure OctomindTestReport where
  id : String
  testTargetId : String
  status : String
  executionUrl : String
  createdAt : Option String
  startedAt : Option String
  finishedAt : Option String
  breakpoint : Option String
  browserType : Option String
  testResults : List OctomindTestResult
  deriving Repr, DecidableEq

/-- A tag attached to a test case (`OctomindTestCaseTag`). -/
structure OctomindTestCaseTag where
  id : String
  type : String
  value : String
  environmentId : String
  testTargetId : String
  deriving Repr, DecidableEq

/-- A test case (`OctomindTestCase`). -/
structure OctomindTestCase where
  id : String
  name : String
  description : Option String
  tags : Option (List OctomindTestCaseTag)
  externalId : Option String
  deriving Repr, DecidableEq

/-- A test target (`OctomindTestTarget`); only the fields the converter
reads are kept. -/
structure OctomindTestTarget where
  id : String
  app : String
  deriving Repr, DecidableEq

/-- One page of the paginated reports endpoint (`OctomindTestReportsPage`).
`key` models `page.key?.createdAt`: the cursor value carried by the
response, absent when the server sent no key object. -/
structure OctomindTestReportsPage where
  data : List OctomindTestReport
  key : Option String
  hasNextPage : Bool
  deriving Repr, DecidableEq

/-! ## Target data model (Allure types) -/

/-- The Allure status enumeration (`AllureStatus`). -/
inductive AllureStatus where
  | passed
  | failed
  | broken
  | skipped
  | unknown
  deriving Repr, DecidableEq

/-- Status details attached to a result or step (`AllureStatusDetails`). -/
structure AllureStatusDetails where
  message : Option String
  trace : Option String
  deriving Repr, DecidableEq

/-- A translated step (`AllureStep`).  `start`/`stop` are JS numbers:
`none` stands for `NaN`. -/
structure AllureStep where
  name : String
  status : AllureStatus
  statusDetails : Option AllureStatusDetails
  stage : String
  start : Option Nat
  stop : Option Nat
  deriving Repr, DecidableEq

/-- A link of a translated result (`AllureLink`). -/
structure AllureLink where
  type : String
  name : String
  url : String
  deriving Repr, DecidableEq

/-- A label of a translated result (`AllureLabel`). -/
structure AllureLabel where
  name : String
  value : String
  deriving Repr, DecidableEq

/-- A translated test result (`AllureTestResult`).  The object literal in
`convertTestResult` always carries a `steps` array, so the field is not
optional here. -/
structure AllureTestResult where
  uuid : String
  historyId : String
  testCaseId : String
  fullName : String
  name : String
  description : Option String
  links : List AllureLink
  labels : List AllureLabel
  status : AllureStatus
  statusDetails : Option AllureStatusDetails
  stage : String
  start : Option Nat
  stop : Option Nat
  steps : List AllureStep
  deriving Repr, DecidableEq

/-! ## JavaScript semantics helpers -/

/-- JS truthiness of an optional string: truthy iff present and non-empty. -/
def strTruthy : Option String → Bool
  | none => false
  | some s => !s.isEmpty

/-- JS `a || b` for `a : string | undefined` and `b : string`: the first
truthy operand, else the last. -/
def jsOrStr (a : Option String) (b : String) : String :=
  match a with
  | some s => if s.isEmpty then b else s
  | none => b

/-- Addition of a duration to a JS timestamp: `NaN + d = NaN`. -/
def jsAddTime (t : Option Nat) (d : Nat) : Option Nat :=
  t.map (· + d)

/-! ## MD5 (the hash used by `generateHistoryId` via Node's `crypto`)

`crypto.createHash('md5').update(s).digest('hex')` hashes the UTF-8 bytes
of `s` and renders the 16-byte digest in lowercase hex.  The algorithm is
embedded below over `Nat`, with 32-bit wrap-around written explicitly as
`% 2^32`. -/

namespace MD5

/-- Reduction modulo `2^32`. -/
def w32 (n : Nat) : Nat := n % 4294967296

/-- 32-bit wrap-around addition. -/
def wadd (a b : Nat) : Nat := w32 (a + b)

/-- All 32 bits set; used to express 32-bit complement as XOR. -/
def mask32 : Nat := 4294967295

/-- 32-bit left rotation by `s` (for `x < 2^32`). -/
def rotl (x s : Nat) : Nat := w32 (x * 2 ^ s) + w32 x / 2 ^ (32 - s)

/-- Round function of rounds 0–15: `(b ∧ c) ∨ (¬b ∧ d)`. -/
def auxF (b c d : Nat) : Nat := (b &&& c) ||| ((mask32 ^^^ b) &&& d)

/-- Round function of rounds 16–31: `(d ∧ b) ∨ (¬d ∧ c)`. -/
def auxG (b c d : Nat) : Nat := (d &&& b) ||| ((mask32 ^^^ d) &&& c)

/-- Round function of rounds 32–47: `b ⊕ c ⊕ d`. -/
def auxH (b c d : Nat) : Nat := b ^^^ c ^^^ d

/-- Round function of rounds 48–63: `c ⊕ (b ∨ ¬d)`. -/
def auxI (b c d : Nat) : Nat := c ^^^ (b ||| (mask32 ^^^ d))

/-- The 64 sine-derived round constants `⌊|sin(i+1)|·2^32⌋`. -/
def kTable : List Nat :=
  [3614090360, 3905402710, 606105819, 3250441966, 4118548399, 1200080426,
   2821735955, 4249261313, 1770035416, 2336552879, 4294925233, 2304563134,
   1804603682, 4254626195, 2792965006, 1236535329, 4129170786, 3225465664,
   643717713, 3921069994, 3593408605, 38016083, 3634488961, 3889429448,
   568446438, 3275163606, 4107603335, 1163531501, 2850285829, 4243563512,
   1735328473, 2368359562, 4294588738, 2272392833, 1839030562, 4259657740,
   2763975236, 1272893353, 4139469664, 3200236656, 681279174, 3936430074,
   3572445317, 76029189, 3654602809, 3873151461, 530742520, 3299628645,
   4096336452, 1126891415, 2878612391, 4237533241, 1700485571, 2399980690,
   4293915773, 2240044497, 1873313359, 4264355552, 2734768916, 1309151649,
   4149444226, 3174756917, 718787259, 3951481745]

/-- The per-round left-rotation amounts. -/
def sTable : List Nat :=
  [7, 12, 17, 22, 7, 12, 17, 22, 7, 12, 17, 22, 7, 12, 17, 22,
   5, 9, 14, 20, 5, 9, 14, 20, 5, 9, 14, 20, 5, 9, 14, 20,
   4, 11, 16, 23, 4, 11, 16, 23, 4, 11, 16, 23, 4, 11, 16, 23,
   6, 10, 15, 21, 6, 10, 15, 21, 6, 10, 15, 21, 6, 10, 15, 21]

/-- One MD5 round: rotate the register file and mix in word `M[g]`. -/
def roundOp (M : List Nat) (st : Nat × Nat × Nat × Nat) (i : Nat) :
    Nat × Nat × Nat × Nat :=
  let a := st.1
  let b := st.2.1
  let c := st.2.2.1
  let d := st.2.2.2
  let f :=
    if i < 16 then auxF b c d
    else if i < 32 then auxG b c d
    else if i < 48 then auxH b c d
    else auxI b c d
  let g :=
    if i < 16 then i
    else if i < 32 then (5 * i + 1) % 16
    else if i < 48 then (3 * i + 5) % 16
    else (7 * i) % 16
  let mixed := wadd (wadd (wadd a f) (kTable.getD i 0)) (M.getD g 0)
  (d, wadd b (rotl mixed (sTable.getD i 0)), b, c)

/-- Process one 16-word chunk: 64 rounds, then add into the state. -/
def processChunk (st : Nat × Nat × Nat × Nat) (M : List Nat) :
    Nat × Nat × Nat × Nat :=
  let r := (List.range 64).foldl (roundOp M) st
  (wadd st.1 r.1, wadd st.2.1 r.2.1, wadd st.2.2.1 r.2.2.1,
   wadd st.2.2.2 r.2.2.2)

/-- Group a byte list into little-endian 32-bit words. -/
def toWordsLE : List Nat → List Nat
  | b0 :: b1 :: b2 :: b3 :: rest =>
      (b0 + 256 * b1 + 65536 * b2 + 16777216 * b3) :: toWordsLE rest
  | _ => []

/-- The `count` low-order bytes of `n`, little-endian. -/
def natToBytesLE (n : Nat) : Nat → List Nat
  | 0 => []
  | count + 1 => n % 256 :: natToBytesLE (n / 256) count

/-- MD5 padding: `0x80`, zeros to 56 mod 64, then the 64-bit bit length. -/
def padBytes (msg : List Nat) : List Nat :=
  let len := msg.length
  let zeros := (119 - len % 64) % 64
  msg ++ [128] ++ List.replicate zeros 0 ++
    natToBytesLE (len * 8 % 18446744073709551616) 8

/-- Split a byte list into 64-byte chunks. -/
def chunks64 : List Nat → List (List Nat)
  | [] => []
  | b :: rest => ((b :: rest).take 64) :: chunks64 ((b :: rest).drop 64)
termination_by l => l.length
decreasing_by simp; omega

/-- The MD5 initial state `(A, B, C, D)`. -/
def initState : Nat × Nat × Nat × Nat :=
  (1732584193, 4023233417, 2562383102, 271733878)

/-- Serialize the final state as 16 bytes (each word little-endian). -/
def stateBytes (st : Nat × Nat × Nat × Nat) : List Nat :=
  natToBytesLE st.1 4 ++ natToBytesLE st.2.1 4 ++ natToBytesLE st.2.2.1 4 ++
    natToBytesLE st.2.2.2 4

/-- The 16-byte MD5 digest of a byte list. -/
def md5Bytes (msg : List Nat) : List Nat :=
  stateBytes ((chunks64 (padBytes msg)).foldl
    (fun st chunk => processChunk st (toWordsLE chunk)) initState)

/-- A lowercase hex digit. -/
def hexDigit (n : Nat) : Char :=
  if n < 10 then Char.ofNat (48 + n) else Char.ofNat (87 + n)

/-- Two lowercase hex digits of a byte. -/
def byteHex (b : Nat) : List Char := [hexDigit (b / 16 % 16), hexDigit (b % 16)]

/-- Lowercase hex rendering of a byte list. -/
def bytesToHex (bs : List Nat) : String := String.mk (bs.flatMap byteHex)

/-- UTF-8 encoding of one character (by code point). -/
def charUtf8 (c : Char) : List Nat :=
  let n := c.toNat
  if n < 128 then [n]
  else if n < 2048 then [192 + n / 64, 128 + n % 64]
  else if n < 65536 then [224 + n / 4096, 128 + n / 64 % 64, 128 + n % 64]
  else [240 + n / 262144, 128 + n / 4096 % 64, 128 + n / 64 % 64, 128 + n % 64]

/-- UTF-8 encoding of a string, as Node's `hash.update(string)` uses. -/
def strUtf8 (s : String) : List Nat := s.data.flatMap charUtf8

/-- Computes `crypto.createHash('md5').update(s).digest('hex')`. -/
def md5Hex (s : String) : String := bytesToHex (md5Bytes (strUtf8 s))

end MD5

/-! ## Status mapper, history id, step translator -/

/-- The status mapper `convertStatus`: the `switch` mapping Octomind statuses to Allure
statuses, with `unknown` as the `default` arm. -/
def convertStatus (status : String) : AllureStatus :=
  if status = "PASSED" then .passed
  else if status = "FAILED" then .failed
  else if status = "BROKEN" then .broken
  else if status = "SKIPPED" then .skipped
  else .unknown

/-- The identity deriver `generateHistoryId`: the hex MD5 of `"{testTargetId}:{testCaseId}"`. -/
def generateHistoryId (testTargetId testCaseId : String) : String :=
  MD5.md5Hex (testTargetId ++ ":" ++ testCaseId)

/-- The step translator `convertStep`: translate one step at a given running timestamp.  The
stop is the start plus `step.duration || 0`; a truthy `step.error` yields a
status-details block carrying it as message. -/
def convertStep (step : OctomindTestStep) (startTime : Option Nat) : AllureStep :=
  { name := step.name
    status := convertStatus step.status
    statusDetails :=
      if strTruthy step.error then some { message := step.error, trace := none }
      else none
    stage := "finished"
    start := startTime
    stop := jsAddTime startTime (step.duration.getD 0) }

/-- The step-threading loop of `convertTestResult`: translate each step at
`currentTime`, then advance `currentTime` by `step.duration || 0`. -/
def convertSteps : List OctomindTestStep → Option Nat → List AllureStep
  | [], _ => []
  | s :: rest, t => convertStep s t :: convertSteps rest (jsAddTime t (s.duration.getD 0))

/-! ## Record translator -/

/-- The record translator `convertTestResult`.  Parameters modelling the ambient JS runtime:
`parseDate s` is `new Date(s).getTime()` (`none` = `NaN`), `now` is
`Date.now()`, `uuid` is `randomUUID()`. -/
def convertTestResult (parseDate : String → Option Nat) (now : Nat) (uuid : String)
    (testResult : OctomindTestResult) (testReport : OctomindTestReport)
    (testCase : OctomindTestCase) (testTarget : OctomindTestTarget) :
    AllureTestResult :=
  let historyId := generateHistoryId testResult.testTargetId testResult.testCaseId
  let testName := jsOrStr testCase.description
    (if testCase.name.isEmpty then testResult.testCaseId else testCase.name)
  let testFullName := testTarget.app ++ "." ++ testName
  let createdAt : Option Nat :=
    if strTruthy testResult.createdAt then parseDate (testResult.createdAt.getD "")
    else some now
  let updatedAt : Option Nat :=
    if strTruthy testResult.updatedAt then parseDate (testResult.updatedAt.getD "")
    else createdAt
  let start := createdAt
  let stop := updatedAt
  let links : List AllureLink :=
    [{ type := "link", name := "View in Octomind",
       url := "https://app.octomind.dev/testtargets/" ++ testResult.testTargetId
         ++ "/testreports/" ++ testReport.id }]
    ++ (if strTruthy testResult.traceUrl then
          [{ type := "link", name := "Playwright Trace",
             url := testResult.traceUrl.getD "" }]
        else [])
    ++ (if strTruthy testCase.externalId then
          [{ type := "tms", name := testCase.externalId.getD "",
             url := "#" ++ testCase.externalId.getD "" }]
        else [])
  let labels : List AllureLabel :=
    [{ name := "host", value := "octomind" },
     { name := "language", value := "typescript" },
     { name := "framework", value := "playwright" },
     { name := "testClass", value := testTarget.app },
     { name := "testMethod", value := testResult.testCaseId },
     { name := "suite", value := testName },
     { name := "package", value := testTarget.app }]
    ++ (if strTruthy testReport.breakpoint then
          [{ name := "breakpoint", value := testReport.breakpoint.getD "" }]
        else [])
    ++ (if strTruthy testReport.browserType then
          [{ name := "browser", value := testReport.browserType.getD "" }]
        else [])
    ++ (match testCase.tags with
        | none => []
        | some tags =>
            (tags.filter (fun t => t.type = "TEXT")).map
              (fun t => { name := "tag", value := t.value }))
  let steps : List AllureStep :=
    match testResult.steps with
    | none => []
    | some l => convertSteps l start
  let statusDetails : Option AllureStatusDetails :=
    if strTruthy testResult.error || strTruthy testResult.stackTrace then
      some { message := testResult.error, trace := testResult.stackTrace }
    else none
  { uuid := uuid
    historyId := historyId
    testCaseId := testResult.testCaseId
    fullName := testFullName
    name := testName
    description := testCase.description
    links := links
    labels := labels
    status := convertStatus testResult.status
    statusDetails := statusDetails
    stage := "finished"
    start := start
    stop := stop
    steps := steps }

/-! ## Cached test-case lookup (`fetchTestCase`) -/

/-- Outcome of the remote test-case fetch, seen from `fetchTestCase`:
the body parsed to a case, the response had a non-OK status, or the
transport / body parsing threw (a rejected `fetch` promise or a
`response.json()` parse failure — neither is caught in the source). -/
inductive RemoteFetchOutcome where
  | ok (testCase : OctomindTestCase)
  | httpError
  | threw
  deriving Repr, DecidableEq

/-- The cached lookup `fetchTestCase`.  `remote` maps a (target id, case id) pair to the
outcome of the remote fetch; the cache (`Map<string, OctomindTestCase>`) is
modelled as an association list, looked up and extended by its string key
`"{testTargetId}:{testCaseId}"`.  The returned `Bool` records whether a
remote fetch happened; a thrown transport/parse error propagates as
`.error`. -/
def fetchTestCase (remote : String → String → RemoteFetchOutcome)
    (cache : List (String × OctomindTestCase))
    (testTargetId testCaseId : String) :
    Except Unit (OctomindTestCase × List (String × OctomindTestCase) × Bool) :=
  let cacheKey := testTargetId ++ ":" ++ testCaseId
  match cache.lookup cacheKey with
  | some tc => .ok (tc, cache, false)
  | none =>
    match remote testTargetId testCaseId with
    | .threw => .error ()
    | .httpError =>
        let tc : OctomindTestCase :=
          { id := testCaseId, name := testCaseId, description := none,
            tags := some [], externalId := none }
        .ok (tc, (cacheKey, tc) :: cache, true)
    | .ok tc => .ok (tc, (cacheKey, tc) :: cache, true)

/-! ## Pagination engine (`fetchAllTestReports`) -/

/-- Models `options?.maxReports || Infinity`: `none` models `Infinity`; note that
a supplied `0` is falsy in JS and therefore also becomes `Infinity`. -/
def effMax : Option Nat → Option Nat
  | none => none
  | some m => if m = 0 then none else some m

/-- The loop guard `allReports.length < maxReports` (true when the bound is `Infinity`). -/
def belowMax (len : Nat) : Option Nat → Bool
  | none => true
  | some m => len < m

/-- The mutable state of the pagination `while` loop. -/
structure PaginationState where
  allReports : List OctomindTestReport
  seenIds : List String
  keyCreatedAt : Option String
  hasNextPage : Bool
  deriving Repr, DecidableEq

/-- The initial pagination state. -/
def initPagination : PaginationState :=
  { allReports := [], seenIds := [], keyCreatedAt := none, hasNextPage := true }

/-- The `while` loop of `fetchAllTestReports`, with explicit fuel.
`server callIdx cursor` is the page returned by the `callIdx`-th remote
call when sent `cursor`; `max` is the already-defaulted bound.  Returns
`none` only if the fuel runs out. -/
def fetchAllLoop (server : Nat → Option String → OctomindTestReportsPage)
    (max : Option Nat) :
    Nat → Nat → PaginationState → Option (List OctomindTestReport)
  | 0, _, _ => none
  | fuel + 1, callIdx, st =>
    if st.hasNextPage && belowMax st.allReports.length max then
      let page := server callIdx st.keyCreatedAt
      let newReports := page.data.filter (fun r => !(st.seenIds.contains r.id))
      if newReports.length = 0 && page.data.length > 0 then
        -- all reports in this page were duplicates: pagination is broken
        some st.allReports
      else
        let reports1 := st.allReports ++ newReports
        let seen1 := st.seenIds ++ newReports.map (fun r => r.id)
        let hasNext1 := page.hasNextPage
        let key1 :=
          if hasNext1 && strTruthy page.key then page.key else st.keyCreatedAt
        if !belowMax reports1.length max then
          -- reached the max
          some reports1
        else if newReports.length = 0 && hasNext1 then
          -- no new reports but hasNextPage: stop to prevent an infinite loop
          some reports1
        else
          fetchAllLoop server max fuel (callIdx + 1)
            { allReports := reports1, seenIds := seen1,
              keyCreatedAt := key1, hasNextPage := hasNext1 }
    else
      -- the `while` condition failed: fall through to the trim and return
      some st.allReports

/-- Top level `fetchAllTestReports`: run the loop from the initial state, then trim
the accumulated list to the max if it was exceeded. -/
def fetchAllTestReports (server : Nat → Option String → OctomindTestReportsPage)
    (maxReports : Option Nat) (fuel : Nat) : Option (List OctomindTestReport) :=
  let max := effMax maxReports
  (fetchAllLoop server max fuel 0 initPagination).map (fun allReports =>
    match max with
    | none => allReports
    | some m => if m < allReports.length then allReports.take m else allReports)

/-! ## Helper lemmas -/

/-- The digest serialization always yields `count` bytes. -/
theorem MD5.natToBytesLE_length (n count : Nat) :
    (MD5.natToBytesLE n count).length = count := by
  induction count generalizing n with
  | zero => rfl
  | succ c ih => simp [MD5.natToBytesLE, ih]

/-- The MD5 digest of any byte list has exactly 16 bytes. -/
theorem MD5.md5Bytes_length (msg : List Nat) : (MD5.md5Bytes msg).length = 16 := by
  unfold MD5.md5Bytes MD5.stateBytes
  simp [MD5.natToBytesLE_length]

/-- Hex rendering yields two characters per byte. -/
theorem MD5.flatMap_byteHex_length (bs : List Nat) :
    (bs.flatMap MD5.byteHex).length = 2 * bs.length := by
  induction bs with
  | nil => rfl
  | cons b rest ih => simp [MD5.byteHex, ih]; omega

/-- The hex MD5 digest of any string has exactly 32 characters. -/
theorem MD5.md5Hex_length (s : String) : (MD5.md5Hex s).length = 32 := by
  show (String.mk ((MD5.md5Bytes (MD5.strUtf8 s)).flatMap MD5.byteHex)).length = 32
  show ((MD5.md5Bytes (MD5.strUtf8 s)).flatMap MD5.byteHex).length = 32
  rw [MD5.flatMap_byteHex_length, MD5.md5Bytes_length]

/-- `convertSteps` translates each step: the lengths agree. -/
theorem convertSteps_length (l : List OctomindTestStep) (t : Option Nat) :
    (convertSteps l t).length = l.length := by
  induction l generalizing t with
  | nil => rfl
  | cons s rest ih => simp [convertSteps, ih]

/-- The first translated step starts at the threading start time. -/
theorem convertSteps_start_zero (l : List OctomindTestStep) (t : Option Nat)
    (h : 0 < (convertSteps l t).length) :
    ((convertSteps l t).get ⟨0, h⟩).start = t := by
  cases l with
  | nil => simp [convertSteps] at h
  | cons s rest => simp [convertSteps, convertStep]

/-- Each translated step stops at its own start plus `duration || 0`. -/
theorem convertSteps_stop (l : List OctomindTestStep) (t : Option Nat) (i : Nat)
    (ho : i < (convertSteps l t).length) (hs : i < l.length) :
    ((convertSteps l t).get ⟨i, ho⟩).stop
      = jsAddTime ((convertSteps l t).get ⟨i, ho⟩).start
          ((l.get ⟨i, hs⟩).duration.getD 0) := by
  induction l generalizing t i with
  | nil => simp at hs
  | cons s rest ih =>
    cases i with
    | zero => simp [convertSteps, convertStep]
    | succ j =>
      have ho' : j < (convertSteps rest (jsAddTime t (s.duration.getD 0))).length := by
        simpa [convertSteps] using ho
      have hs' : j < rest.length := by simpa using hs
      simpa [convertSteps] using ih (jsAddTime t (s.duration.getD 0)) j ho' hs'

/-- Each later translated step starts where the previous one stopped. -/
theorem convertSteps_start_succ (l : List OctomindTestStep) (t : Option Nat) (i : Nat)
    (h1 : i + 1 < (convertSteps l t).length) (h2 : i < (convertSteps l t).length) :
    ((convertSteps l t).get ⟨i + 1, h1⟩).start
      = ((convertSteps l t).get ⟨i, h2⟩).stop := by
  induction l generalizing t i with
  | nil => simp [convertSteps] at h2
  | cons s rest ih =>
    cases i with
    | zero =>
      have h0 : 0 < (convertSteps rest (jsAddTime t (s.duration.getD 0))).length := by
        simpa [convertSteps] using h1
      simpa [convertSteps, convertStep] using
        convertSteps_start_zero rest (jsAddTime t (s.duration.getD 0)) h0
    | succ j =>
      have h1' : j + 1 < (convertSteps rest (jsAddTime t (s.duration.getD 0))).length := by
        simpa [convertSteps] using h1
      have h2' : j < (convertSteps rest (jsAddTime t (s.duration.getD 0))).length := by
        simpa [convertSteps] using h2
      simpa [convertSteps] using ih (jsAddTime t (s.duration.getD 0)) j h1' h2'

/-- With a proper (non-`NaN`) start time every translated step has proper,
non-decreasing start/stop times. -/
theorem convertSteps_some (l : List OctomindTestStep) (t0 : Nat) (i : Nat)
    (ho : i < (convertSteps l (some t0)).length) :
    ∃ a b : Nat, ((convertSteps l (some t0)).get ⟨i, ho⟩).start = some a ∧
      ((convertSteps l (some t0)).get ⟨i, ho⟩).stop = some b ∧ a ≤ b := by
  induction l generalizing t0 i with
  | nil => simp [convertSteps] at ho
  | cons s rest ih =>
    cases i with
    | zero =>
      refine ⟨t0, t0 + s.duration.getD 0, ?_, ?_, by omega⟩ <;>
        simp [convertSteps, convertStep, jsAddTime]
    | succ j =>
      have ho' : j < (convertSteps rest (some (t0 + s.duration.getD 0))).length := by
        simpa [convertSteps, jsAddTime] using ho
      have := ih (t0 + s.duration.getD 0) j ho'
      simpa [convertSteps, jsAddTime] using this

/-- Filtering with a pointwise-stronger predicate keeps at most as many
elements. -/
theorem length_filter_le_of_imp {α : Type} (l : List α) (p q : α → Bool)
    (h : ∀ a ∈ l, q a = true → p a = true) :
    (l.filter q).length ≤ (l.filter p).length := by
  induction l with
  | nil => simp
  | cons a rest ih =>
    have ih' := ih (fun x hx => h x (List.mem_cons_of_mem _ hx))
    by_cases hq : q a = true
    · have hp := h a (List.mem_cons_self a rest) hq
      simp [List.filter_cons, hq, hp]
      omega
    · rcases Bool.eq_false_or_eq_true (p a) with hp | hp
      · simp [List.filter_cons, hq, hp]
        omega
      · simp [List.filter_cons, hq, hp]
        omega

/-- Filtering with a pointwise-stronger predicate that rules out a member
the weaker one keeps yields strictly fewer elements. -/
theorem length_filter_lt_of_witness {α : Type} (l : List α) (p q : α → Bool)
    (h : ∀ a ∈ l, q a = true → p a = true)
    (a : α) (ha : a ∈ l) (hpa : p a = true) (hqa : q a = false) :
    (l.filter q).length < (l.filter p).length := by
  induction l with
  | nil => simp at ha
  | cons b rest ih =>
    have hmono : (rest.filter q).length ≤ (rest.filter p).length :=
      length_filter_le_of_imp rest p q (fun x hx => h x (List.mem_cons_of_mem _ hx))
    rcases List.mem_cons.mp ha with rfl | hmem
    · simp [List.filter_cons, hqa, hpa]
      omega
    · have ih' := ih (fun x hx => h x (List.mem_cons_of_mem _ hx)) hmem
      by_cases hq : q b = true
      · have hp := h b (List.mem_cons_self b rest) hq
        simp [List.filter_cons, hq, hp]
        omega
      · rcases Bool.eq_false_or_eq_true (p b) with hp | hp
        · simp [List.filter_cons, hq, hp]
          omega
        · simp [List.filter_cons, hq, hp]
          omega

/-- Once `hasNextPage` is false the loop stops at its condition and returns
the accumulator. -/
theorem fetchAllLoop_stop_of_not_next (server : Nat → Option String → OctomindTestReportsPage)
    (max : Option Nat) (callIdx : Nat) (st : PaginationState)
    (h : st.hasNextPage = false) (fuel : Nat) (hf : 1 ≤ fuel) :
    fetchAllLoop server max fuel callIdx st = some st.allReports := by
  obtain ⟨f, rfl⟩ : ∃ f, fuel = f + 1 := ⟨fuel - 1, by omega⟩
  simp [fetchAllLoop, h]

/-- A non-empty page whose ids were all seen before makes the loop stop
immediately, returning exactly the reports accumulated so far. -/
theorem fetchAllLoop_dup_stop (server : Nat → Option String → OctomindTestReportsPage)
    (max : Option Nat) (fuel callIdx : Nat) (st : PaginationState)
    (hnext : st.hasNextPage = true)
    (hbelow : belowMax st.allReports.length max = true)
    (hne : (server callIdx st.keyCreatedAt).data ≠ [])
    (hdup : ∀ r ∈ (server callIdx st.keyCreatedAt).data, r.id ∈ st.seenIds) :
    fetchAllLoop server max (fuel + 1) callIdx st = some st.allReports := by
  have hfilter : (server callIdx st.keyCreatedAt).data.filter
      (fun r => !(st.seenIds.contains r.id)) = [] := by
    rw [List.filter_eq_nil_iff]
    intro r hr
    simp [hdup r hr]
  have hpos : 0 < (server callIdx st.keyCreatedAt).data.length :=
    List.length_pos.mpr hne
  simp only [fetchAllLoop]
  rw [hnext, hbelow, hfilter]
  simp [hpos]

/-- Appending a page's fresh reports keeps the accumulated ids duplicate
free, provided the page itself carried no duplicated ids and the
accumulator's ids all sit in the seen set. -/
theorem append_filtered_nodup (pageData : List OctomindTestReport) (st : PaginationState)
    (hpage : (pageData.map (fun r => r.id)).Nodup)
    (hnodup : (st.allReports.map (fun r => r.id)).Nodup)
    (hsub : ∀ r ∈ st.allReports, r.id ∈ st.seenIds) :
    ((st.allReports ++ pageData.filter (fun r => !(st.seenIds.contains r.id))).map
      (fun r => r.id)).Nodup := by
  rw [List.map_append]
  refine List.Nodup.append hnodup ?_ ?_
  · exact List.Nodup.sublist
      (List.Sublist.map _ (List.filter_sublist pageData)) hpage
  · intro x hx1 hx2
    obtain ⟨r, hr, rfl⟩ := List.mem_map.mp hx2
    obtain ⟨hrmem, hrpass⟩ := List.mem_filter.mp hr
    obtain ⟨r0, hr0, hid⟩ := List.mem_map.mp hx1
    have : r.id ∈ st.seenIds := hid ▸ hsub r0 hr0
    simp [this] at hrpass

/-- Loop invariant: if every page the server can serve has internally
duplicate-free ids, the accumulated report ids stay duplicate free. -/
theorem fetchAllLoop_nodup (server : Nat → Option String → OctomindTestReportsPage)
    (max : Option Nat)
    (hpages : ∀ n k, (((server n k).data).map (fun r => r.id)).Nodup) :
    ∀ (fuel callIdx : Nat) (st : PaginationState),
      (st.allReports.map (fun r => r.id)).Nodup →
      (∀ r ∈ st.allReports, r.id ∈ st.seenIds) →
      ∀ res, fetchAllLoop server max fuel callIdx st = some res →
        (res.map (fun r => r.id)).Nodup := by
  intro fuel
  induction fuel with
  | zero =>
    intro callIdx st _ _ res hres
    simp [fetchAllLoop] at hres
  | succ f ih =>
    intro callIdx st hnodup hsub res hres
    simp only [fetchAllLoop] at hres
    by_cases hcond : (st.hasNextPage && belowMax st.allReports.length max) = true
    · rw [if_pos hcond] at hres
      set page := server callIdx st.keyCreatedAt with hpageEq
      set newReports := page.data.filter (fun r => !(st.seenIds.contains r.id))
        with hnewEq
      have hnodup1 : ((st.allReports ++ newReports).map (fun r => r.id)).Nodup := by
        rw [hnewEq, hpageEq]
        exact append_filtered_nodup page.data st (hpages callIdx st.keyCreatedAt)
          hnodup hsub
      have hsub1 : ∀ r ∈ st.allReports ++ newReports,
          r.id ∈ st.seenIds ++ newReports.map (fun r => r.id) := by
        intro r hr
        rcases List.mem_append.mp hr with hr | hr
        · exact List.mem_append_left _ (hsub r hr)
        · exact List.mem_append_right _ (List.mem_map_of_mem _ hr)
      by_cases hd : (decide (newReports.length = 0) && decide (page.data.length > 0)) = true
      · rw [if_pos hd] at hres
        cases hres
        exact hnodup
      · rw [if_neg hd] at hres
        by_cases hmax : (!belowMax (st.allReports ++ newReports).length max) = true
        · rw [if_pos hmax] at hres
          cases hres
          exact hnodup1
        · rw [if_neg hmax] at hres
          by_cases hdef : (decide (newReports.length = 0) && page.hasNextPage) = true
          · rw [if_pos hdef] at hres
            cases hres
            exact hnodup1
          · rw [if_neg hdef] at hres
            exact ih (callIdx + 1) _ hnodup1 hsub1 res hres
    · rw [if_neg hcond] at hres
      cases hres
      exact hnodup

/-- Termination of the pagination loop: when every report id the server
can ever serve lies in a finite universe `U`, fuel exceeding the number of
not-yet-seen universe ids by two always suffices. -/
theorem fetchAllLoop_isSome (server : Nat → Option String → OctomindTestReportsPage)
    (max : Option Nat) (U : List String)
    (hU : ∀ n k, ∀ r ∈ (server n k).data, r.id ∈ U) :
    ∀ (fuel callIdx : Nat) (st : PaginationState),
      (U.filter (fun u => !(st.seenIds.contains u))).length + 2 ≤ fuel →
      (fetchAllLoop server max fuel callIdx st).isSome := by
  intro fuel
  induction fuel with
  | zero =>
    intro callIdx st hm
    omega
  | succ f ih =>
    intro callIdx st hm
    simp only [fetchAllLoop]
    by_cases hcond : (st.hasNextPage && belowMax st.allReports.length max) = true
    · rw [if_pos hcond]
      set page := server callIdx st.keyCreatedAt with hpageEq
      set newReports := page.data.filter (fun r => !(st.seenIds.contains r.id))
        with hnewEq
      by_cases hd : (decide (newReports.length = 0) && decide (page.data.length > 0)) = true
      · rw [if_pos hd]
        simp
      · rw [if_neg hd]
        by_cases hmax : (!belowMax (st.allReports ++ newReports).length max) = true
        · rw [if_pos hmax]
          simp
        · rw [if_neg hmax]
          by_cases hdef : (decide (newReports.length = 0) && page.hasNextPage) = true
          · rw [if_pos hdef]
            simp
          · rw [if_neg hdef]
            rcases hnew : newReports with _ | ⟨r, rest⟩
            · -- an empty page with `hasNextPage = false`: the next
              -- iteration exits at the loop condition
              have hnext1 : page.hasNextPage = false := by
                rcases Bool.eq_false_or_eq_true page.hasNextPage with h | h
                · exact absurd (by simp [hnew, h]) hdef
                · exact h
              rw [fetchAllLoop_stop_of_not_next server max (callIdx + 1) _ hnext1 f
                (by omega)]
              simp
            · -- a genuinely new report: the set of unseen universe ids
              -- strictly shrinks
              apply ih (callIdx + 1)
              have hrnew : r ∈ newReports := by
                rw [hnew]
                exact List.mem_cons_self r rest
              have hrfilter := List.mem_filter.mp (hnewEq ▸ hrnew)
              have hidU : r.id ∈ U := hU callIdx st.keyCreatedAt r hrfilter.1
              have hnotseen : st.seenIds.contains r.id = false := by
                simpa using hrfilter.2
              have hinseen1 : r.id ∈ st.seenIds ++ newReports.map (fun r => r.id) :=
                List.mem_append_right _ (List.mem_map_of_mem _ hrnew)
              have hdec :
                  (U.filter (fun u =>
                    !((st.seenIds ++ newReports.map (fun r => r.id)).contains u))).length
                  < (U.filter (fun u => !(st.seenIds.contains u))).length := by
                refine length_filter_lt_of_witness U _ _ ?_ r.id hidU ?_ ?_
                · intro u _ hq
                  simp only [Bool.not_eq_true'] at hq ⊢
                  rcases Bool.eq_false_or_eq_true (st.seenIds.contains u) with h | h
                  · exfalso
                    have hu : u ∈ st.seenIds := by simpa using h
                    have hu1 : u ∈ st.seenIds ++ newReports.map (fun r => r.id) :=
                      List.mem_append_left _ hu
                    simp [hu1] at hq
                  · exact h
                · simpa using hnotseen
                · simp [hinseen1]
              have hgoal : (U.filter (fun u =>
                  !((st.seenIds ++ newReports.map (fun r => r.id)).contains u))).length
                    + 2 ≤ f := by
                omega
              simpa [hnew] using hgoal
    · rw [if_neg hcond]
      simp

/-! ## Concrete fixtures used by witnesses and counterexamples -/

/-- A sample report with a given id. -/
def sampleRep (i : String) : OctomindTestReport :=
  { id := i, testTargetId := "t", status := "PASSED", executionUrl := "u",
    createdAt := none, startedAt := none, finishedAt := none,
    breakpoint := none, browserType := none, testResults := [] }

/-- A server answering every call with the single-report page `[r1]` and no
continuation. -/
def onePageServer : Nat → Option String → OctomindTestReportsPage := fun _ _ =>
  { data := [sampleRep "r1"], key := none, hasNextPage := false }

/-- A server answering every call with a two-report page and no
continuation. -/
def twoRepServer : Nat → Option String → OctomindTestReportsPage := fun _ _ =>
  { data := [sampleRep "r1", sampleRep "r2"], key := none, hasNextPage := false }

/-- A server whose page repeats the same report id twice within one page. -/
def dupIdServer : Nat → Option String → OctomindTestReportsPage := fun _ _ =>
  { data := [sampleRep "r1", sampleRep "r1"], key := none, hasNextPage := false }

/-- A server whose second page repeats all ids of the first page. -/
def dupSecondServer : Nat → Option String → OctomindTestReportsPage := fun n _ =>
  if n = 0 then
    { data := [sampleRep "a", sampleRep "b"], key := some "k1", hasNextPage := true }
  else
    { data := [sampleRep "b", sampleRep "a"], key := some "k2", hasNextPage := true }

/-- A server claiming a next page forever while serving empty pages. -/
def emptyPageServer : Nat → Option String → OctomindTestReportsPage := fun _ _ =>
  { data := [], key := some "k", hasNextPage := true }

/-! ## Claim theorems -/

/-- C1 (corrected), counterexample: a server page that repeats the same
report id twice *within one page* makes `fetchAllTestReports` return that
id twice — the seen-id filter only guards against duplicates from earlier
pages, so the claim that no report identity ever occurs twice is false as
stated. -/
theorem fetchAll_within_page_duplicate_counterexample :
    (fetchAllTestReports dupIdServer none 2).map (List.map (fun r => r.id))
        = some ["r1", "r1"] ∧
    ¬ (["r1", "r1"] : List String).Nodup := by
  constructor
  · rfl
  · decide

/-- C1 (amended): provided every page served is internally free of
duplicate ids, the cumulative list returned by `fetchAllTestReports`
contains every report id at most once, however often the server repeats
ids across pages. -/
theorem fetchAll_nodup_of_pages_nodup
    (server : Nat → Option String → OctomindTestReportsPage)
    (maxReports : Option Nat) (fuel : Nat) (res : List OctomindTestReport)
    (hpages : ∀ n k, (((server n k).data).map (fun r => r.id)).Nodup)
    (hres : fetchAllTestReports server maxReports fuel = some res) :
    (res.map (fun r => r.id)).Nodup := by
  simp only [fetchAllTestReports] at hres
  rcases hacc : fetchAllLoop server (effMax maxReports) fuel 0 initPagination
    with _ | acc
  · rw [hacc] at hres
    simp at hres
  · rw [hacc] at hres
    have hnodup := fetchAllLoop_nodup server (effMax maxReports) hpages fuel 0
      initPagination (by simp [initPagination]) (by simp [initPagination]) acc hacc
    cases hmax : effMax maxReports with
    | none =>
      rw [hmax] at hres
      simp at hres
      subst hres
      exact hnodup
    | some m =>
      rw [hmax] at hres
      simp at hres
      by_cases hlen : m < acc.length
      · rw [if_pos hlen] at hres
        subst hres
        rw [List.map_take]
        exact List.Nodup.sublist (List.take_sublist m _) hnodup
      · rw [if_neg hlen] at hres
        subst hres
        exact hnodup

/-- C1 witness: a concrete run with an internally duplicate-free page
yields a duplicate-free id list. -/
theorem fetchAll_nodup_witness :
    ((([sampleRep "r1"] : List OctomindTestReport)).map (fun r => r.id)).Nodup :=
  fetchAll_nodup_of_pages_nodup onePageServer none 2 [sampleRep "r1"]
    (fun n k => by simp [onePageServer, sampleRep]) rfl

/-- C2 (confirmed): for every server function whose report ids come
from a finite universe `U` — any cursor/`hasNextPage` behaviour included —
the pagination loop terminates: fuel `|U| + 2` always suffices, because
each iteration either stops or strictly enlarges the set of seen ids. -/
theorem fetchAll_terminating (server : Nat → Option String → OctomindTestReportsPage)
    (maxReports : Option Nat) (U : List String)
    (hU : ∀ n k, ∀ r ∈ (server n k).data, r.id ∈ U) :
    ∃ res, fetchAllTestReports server maxReports (U.length + 2) = some res := by
  have hsome := fetchAllLoop_isSome server (effMax maxReports) U hU (U.length + 2) 0
    initPagination (Nat.add_le_add_right (List.length_filter_le _ U) 2)
  obtain ⟨acc, hacc⟩ := Option.isSome_iff_exists.mp hsome
  refine ⟨(match effMax maxReports with
    | none => acc
    | some m => if m < acc.length then acc.take m else acc), ?_⟩
  simp only [fetchAllTestReports]
  rw [hacc]
  cases effMax maxReports <;> rfl

/-- C2 witness: even a server that always claims a next page while
serving empty pages is exited (here with the empty universe, fuel `2`). -/
theorem fetchAll_terminating_witness :
    ∃ res, fetchAllTestReports emptyPageServer none 2 = some res :=
  fetchAll_terminating emptyPageServer none []
    (fun n k r hr => by simp [emptyPageServer] at hr)

/-- One *continuing* iteration of the pagination loop: when no stop
condition fires, the loop advances to the next call with the page's new
reports appended. -/
theorem fetchAllLoop_succ_continue (server : Nat → Option String → OctomindTestReportsPage)
    (max : Option Nat) (fuel callIdx : Nat) (st : PaginationState)
    (hcond : (st.hasNextPage && belowMax st.allReports.length max) = true)
    (page : OctomindTestReportsPage) (newReports : List OctomindTestReport)
    (hpage : server callIdx st.keyCreatedAt = page)
    (hnewR : page.data.filter (fun r => !(st.seenIds.contains r.id)) = newReports)
    (hd : (decide (newReports.length = 0) && decide (page.data.length > 0)) = false)
    (hmax : (!belowMax (st.allReports ++ newReports).length max) = false)
    (hdef : (decide (newReports.length = 0) && page.hasNextPage) = false) :
    fetchAllLoop server max (fuel + 1) callIdx st
      = fetchAllLoop server max fuel (callIdx + 1)
          { allReports := st.allReports ++ newReports,
            seenIds := st.seenIds ++ newReports.map (fun r => r.id),
            keyCreatedAt :=
              if page.hasNextPage && strTruthy page.key then page.key
              else st.keyCreatedAt,
            hasNextPage := page.hasNextPage } := by
  subst hpage
  subst hnewR
  simp only [fetchAllLoop]
  rw [if_pos hcond, if_neg (by rw [hd]; simp), if_neg (by rw [hmax]; simp),
    if_neg (by rw [hdef]; simp)]

/-- C3 (confirmed): a non-empty page whose report ids were all seen
before stops pagination immediately, returning exactly the reports
accumulated so far (first conjunct, for any loop state); in particular,
after a second page repeating all ids of the first page the engine
returns exactly the first page's reports (second conjunct).  The stop is a
returned value, not an error — the warning log is an effect without
influence on the result. -/
theorem duplicate_page_stops_early (server : Nat → Option String → OctomindTestReportsPage)
    (max : Option Nat) :
    (∀ (st : PaginationState) (fuel callIdx : Nat),
      st.hasNextPage = true →
      belowMax st.allReports.length max = true →
      (server callIdx st.keyCreatedAt).data ≠ [] →
      (∀ r ∈ (server callIdx st.keyCreatedAt).data, r.id ∈ st.seenIds) →
      fetchAllLoop server max (fuel + 1) callIdx st = some st.allReports) ∧
    (∀ (P0 : OctomindTestReportsPage) (fuel : Nat),
      server 0 none = P0 → P0.data ≠ [] → P0.hasNextPage = true →
      (∀ k, (server 1 k).data ≠ [] ∧
        ∀ r ∈ (server 1 k).data, r.id ∈ P0.data.map (fun r => r.id)) →
      fetchAllTestReports server none (fuel + 2) = some P0.data) := by
  constructor
  · intro st fuel callIdx hnext hbelow hne hdup
    exact fetchAllLoop_dup_stop server max fuel callIdx st hnext hbelow hne hdup
  · intro P0 fuel h0 hne hnext h1
    have hpos : 0 < P0.data.length := List.length_pos.mpr hne
    have hne0 : P0.data.length ≠ 0 := by omega
    have hfilterAll : P0.data.filter (fun r => !(([] : List String).contains r.id))
        = P0.data := by
      rw [List.filter_eq_self]
      intro r _
      simp
    have hloop : fetchAllLoop server none (fuel + 1 + 1) 0 initPagination
        = some P0.data := by
      rw [fetchAllLoop_succ_continue server none (fuel + 1) 0 initPagination rfl
        P0 P0.data h0 hfilterAll (by simp [hne0]) rfl (by simp [hne0])]
      exact fetchAllLoop_dup_stop server none fuel (0 + 1) _ hnext rfl (h1 _).1
        (h1 _).2
    show (fetchAllLoop server (effMax none) (fuel + 2) 0 initPagination).map _
        = some P0.data
    have heff : effMax none = none := rfl
    rw [heff, hloop]
    rfl

/-- C3 witness: a concrete server whose second page repeats the first
page's ids makes the engine stop after page one with exactly that page's
reports. -/
theorem duplicate_page_stops_early_witness :
    fetchAllTestReports dupSecondServer none 3 = some [sampleRep "a", sampleRep "b"] := by
  have h := (duplicate_page_stops_early dupSecondServer none).2
    { data := [sampleRep "a", sampleRep "b"], key := some "k1", hasNextPage := true }
    1 rfl (by simp) rfl
    (by
      intro k
      constructor
      · simp [dupSecondServer]
      · intro r hr
        simp [dupSecondServer] at hr
        rcases hr with rfl | rfl <;> simp [sampleRep])
  exact h

/-- C4 (corrected), counterexample: a supplied maximum of `0` is falsy
in JS, so `options?.maxReports || Infinity` turns it into `Infinity` and
no truncation happens — the accumulated single report is returned even
though the claim demands truncation to exactly `0` reports. -/
theorem max_zero_not_truncated_counterexample :
    fetchAllTestReports onePageServer (some 0) 2 = some [sampleRep "r1"] ∧
    (fetchAllTestReports onePageServer (some 0) 2).map List.length ≠ some 0 := by
  constructor
  · rfl
  · decide

/-- C4 (amended): whenever a *positive* maximum report count is
supplied and the loop's accumulated report list exceeds it, the returned
list is the accumulated list truncated to exactly that count — a prefix of
the accumulated order, applied after the loop finishes, never mid-page. -/
theorem truncation_to_positive_max (server : Nat → Option String → OctomindTestReportsPage)
    (m : Nat) (hm : 0 < m) (fuel : Nat) (acc : List OctomindTestReport)
    (hloop : fetchAllLoop server (some m) fuel 0 initPagination = some acc) :
    fetchAllTestReports server (some m) fuel
        = some (if m < acc.length then acc.take m else acc) ∧
    (m < acc.length → (acc.take m).length = m ∧ acc.take m <+: acc) := by
  have heff : effMax (some m) = some m := by
    simp [effMax]
    omega
  constructor
  · simp only [fetchAllTestReports]
    rw [heff, hloop]
    rfl
  · intro hlen
    refine ⟨?_, List.take_prefix m acc⟩
    rw [List.length_take]
    omega

/-- C4 witness: `maxReports = 1` against a two-report page returns
exactly one report, the prefix of the accumulation. -/
theorem truncation_to_positive_max_witness :
    fetchAllTestReports twoRepServer (some 1) 2 = some [sampleRep "r1"] := by
  have h := truncation_to_positive_max twoRepServer 1 (by decide) 2
    [sampleRep "r1", sampleRep "r2"] rfl
  simpa using h.1

/-- A date parser for which every string is malformed (`NaN`). -/
def noParse : String → Option Nat := fun _ => none

/-- A three-step list with durations `[100, –, 50]`. -/
def fixtureSteps : List OctomindTestStep :=
  [{ name := "s1", status := "PASSED", duration := some 100, error := none },
   { name := "s2", status := "PASSED", duration := none, error := none },
   { name := "s3", status := "FAILED", duration := some 50, error := some "boom" }]

/-- A result with no timestamps and no steps. -/
def fixtureResultNoDates : OctomindTestResult :=
  { id := "r1", testTargetId := "tt", testCaseId := "tc", status := "PASSED",
    traceUrl := none, error := none, stackTrace := none, duration := none,
    createdAt := none, updatedAt := none, steps := none }

/-- A result carrying a present-but-malformed `createdAt`. -/
def fixtureResultBadDate : OctomindTestResult :=
  { fixtureResultNoDates with createdAt := some "not-a-date" }

/-- A result carrying the three fixture steps. -/
def fixtureResultSteps : OctomindTestResult :=
  { fixtureResultNoDates with steps := some fixtureSteps }

/-- A report fixture. -/
def fixtureReport : OctomindTestReport := sampleRep "rep1"

/-- A case fixture. -/
def fixtureCase : OctomindTestCase :=
  { id := "tc", name := "CaseName", description := some "Login flow",
    tags := none, externalId := none }

/-- A target fixture. -/
def fixtureTarget : OctomindTestTarget := { id := "tt", app := "MyApp" }

/-- C5 (confirmed): for any step list and start timestamp the
translated steps are contiguous and monotonically non-decreasing — the
first step starts at the given start, each later step starts at the
previous step's stop, each step stops at its start plus `duration || 0`,
every start/stop is a proper non-decreasing pair — and `convertTestResult`
threads exactly this translation from the result's start. -/
theorem steps_contiguous_monotone (l : List OctomindTestStep) (t0 : Nat) :
    (convertSteps l (some t0)).length = l.length ∧
    (∀ h0 : 0 < (convertSteps l (some t0)).length,
      ((convertSteps l (some t0)).get ⟨0, h0⟩).start = some t0) ∧
    (∀ (i : Nat) (h1 : i + 1 < (convertSteps l (some t0)).length)
        (h2 : i < (convertSteps l (some t0)).length),
      ((convertSteps l (some t0)).get ⟨i + 1, h1⟩).start
        = ((convertSteps l (some t0)).get ⟨i, h2⟩).stop) ∧
    (∀ (i : Nat) (ho : i < (convertSteps l (some t0)).length) (hs : i < l.length),
      ((convertSteps l (some t0)).get ⟨i, ho⟩).stop
        = jsAddTime ((convertSteps l (some t0)).get ⟨i, ho⟩).start
            ((l.get ⟨i, hs⟩).duration.getD 0)) ∧
    (∀ (i : Nat) (ho : i < (convertSteps l (some t0)).length),
      ∃ a b : Nat, ((convertSteps l (some t0)).get ⟨i, ho⟩).start = some a ∧
        ((convertSteps l (some t0)).get ⟨i, ho⟩).stop = some b ∧ a ≤ b) ∧
    (∀ (parseDate : String → Option Nat) (now : Nat) (uuid : String)
        (res : OctomindTestResult) (rep : OctomindTestReport)
        (tc : OctomindTestCase) (tt : OctomindTestTarget),
      res.steps = some l →
      (convertTestResult parseDate now uuid res rep tc tt).steps
        = convertSteps l (convertTestResult parseDate now uuid res rep tc tt).start) := by
  refine ⟨convertSteps_length l (some t0), convertSteps_start_zero l (some t0),
    fun i h1 h2 => convertSteps_start_succ l (some t0) i h1 h2,
    fun i ho hs => convertSteps_stop l (some t0) i ho hs,
    fun i ho => convertSteps_some l t0 i ho, ?_⟩
  intro parseDate now uuid res rep tc tt h
  simp [convertTestResult, h]

/-- C5 witness: the three fixture steps at start `1000`. -/
theorem steps_contiguous_monotone_witness :
    0 < (convertSteps fixtureSteps (some 1000)).length ∧
    ((convertSteps fixtureSteps (some 1000)).get ⟨0, by decide⟩).start = some 1000 :=
  ⟨by decide, (steps_contiguous_monotone fixtureSteps 1000).2.1 (by decide)⟩

/-- C6 (confirmed): the history id of every translated result is the
hex MD5 of `"{testTargetId}:{testCaseId}"` computed from the *result's own*
identifiers (whatever the report's are), a pure function of that pair, of
fixed length 32. -/
theorem historyId_from_result_ids (parseDate : String → Option Nat) (now : Nat)
    (uuid : String) (res : OctomindTestResult) (rep : OctomindTestReport)
    (tc : OctomindTestCase) (tt : OctomindTestTarget) :
    (convertTestResult parseDate now uuid res rep tc tt).historyId
      = generateHistoryId res.testTargetId res.testCaseId ∧
    generateHistoryId res.testTargetId res.testCaseId
      = MD5.md5Hex (res.testTargetId ++ ":" ++ res.testCaseId) ∧
    (generateHistoryId res.testTargetId res.testCaseId).length = 32 :=
  ⟨rfl, rfl, MD5.md5Hex_length _⟩

/-- C7 (confirmed): the status mapper is total and exhaustive — the
four known tokens map one-to-one, and every other token (including the
report-only `RUNNING`) maps to `unknown`; no input fails. -/
theorem convertStatus_total_exhaustive :
    convertStatus "PASSED" = AllureStatus.passed ∧
    convertStatus "FAILED" = AllureStatus.failed ∧
    convertStatus "BROKEN" = AllureStatus.broken ∧
    convertStatus "SKIPPED" = AllureStatus.skipped ∧
    convertStatus "RUNNING" = AllureStatus.unknown ∧
    (∀ s : String, s ≠ "PASSED" → s ≠ "FAILED" → s ≠ "BROKEN" → s ≠ "SKIPPED" →
      convertStatus s = AllureStatus.unknown) := by
  refine ⟨by decide, by decide, by decide, by decide, by decide, ?_⟩
  intro s h1 h2 h3 h4
  simp [convertStatus, h1, h2, h3, h4]

/-- C7 witness: an arbitrary unrecognized token maps to `unknown`. -/
theorem convertStatus_total_exhaustive_witness :
    convertStatus "SOMETHING_ELSE" = AllureStatus.unknown :=
  convertStatus_total_exhaustive.2.2.2.2.2 "SOMETHING_ELSE"
    (by decide) (by decide) (by decide) (by decide)

/-- C8 (corrected), counterexample: a *present* malformed `createdAt`
is truthy, so the code takes `new Date(bad).getTime()` — `NaN` — instead of
falling back to `Date.now()`: with current time `1000` the produced start
is `NaN` (modelled `none`), not `some 1000`, and not a valid epoch value. -/
theorem malformed_timestamp_not_now_counterexample :
    (convertTestResult noParse 1000 "u" fixtureResultBadDate fixtureReport
        fixtureCase fixtureTarget).start = none ∧
    (convertTestResult noParse 1000 "u" fixtureResultBadDate fixtureReport
        fixtureCase fixtureTarget).start ≠ some 1000 ∧
    ((convertTestResult noParse 1000 "u" fixtureResultBadDate fixtureReport
        fixtureCase fixtureTarget).start).isSome = false := by
  refine ⟨rfl, by decide, rfl⟩

/-- C8 (amended): the current-time fallback applies only to an
*absent* (or empty, hence falsy) timestamp field: then start is `now` and
stop defaults to start; a present non-empty string is parsed and used
as-is, `NaN` included.  Translation never surfaces an error either way. -/
theorem timestamp_defaulting (parseDate : String → Option Nat) (now : Nat)
    (uuid : String) (res : OctomindTestResult) (rep : OctomindTestReport)
    (tc : OctomindTestCase) (tt : OctomindTestTarget) :
    (strTruthy res.createdAt = false →
      (convertTestResult parseDate now uuid res rep tc tt).start = some now) ∧
    (∀ s, res.createdAt = some s → s ≠ "" →
      (convertTestResult parseDate now uuid res rep tc tt).start = parseDate s) ∧
    (strTruthy res.updatedAt = false →
      (convertTestResult parseDate now uuid res rep tc tt).stop
        = (convertTestResult parseDate now uuid res rep tc tt).start) ∧
    (∀ s, res.updatedAt = some s → s ≠ "" →
      (convertTestResult parseDate now uuid res rep tc tt).stop = parseDate s) := by
  refine ⟨?_, ?_, ?_, ?_⟩
  · intro h
    simp [convertTestResult, h]
  · intro s hs hne
    have hempty : s.isEmpty = false := by
      rcases Bool.eq_false_or_eq_true s.isEmpty with h | h
      · exact absurd ((String.isEmpty_iff s).mp h) hne
      · exact h
    simp [convertTestResult, hs, strTruthy, hempty]
  · intro h
    simp [convertTestResult, h]
  · intro s hs hne
    have hempty : s.isEmpty = false := by
      rcases Bool.eq_false_or_eq_true s.isEmpty with h | h
      · exact absurd ((String.isEmpty_iff s).mp h) hne
      · exact h
    simp [convertTestResult, hs, strTruthy, hempty]

/-- C8 witness: with both timestamps absent, start is the current time
and stop equals start. -/
theorem timestamp_defaulting_witness :
    (convertTestResult noParse 555 "u" fixtureResultNoDates fixtureReport
        fixtureCase fixtureTarget).start = some 555 ∧
    (convertTestResult noParse 555 "u" fixtureResultNoDates fixtureReport
        fixtureCase fixtureTarget).stop
      = (convertTestResult noParse 555 "u" fixtureResultNoDates fixtureReport
          fixtureCase fixtureTarget).start :=
  ⟨(timestamp_defaulting noParse 555 "u" fixtureResultNoDates fixtureReport
      fixtureCase fixtureTarget).1 rfl,
   (timestamp_defaulting noParse 555 "u" fixtureResultNoDates fixtureReport
      fixtureCase fixtureTarget).2.2.1 rfl⟩

/-- C9 (corrected), counterexample: an error *thrown* by the transport
or the body parsing is not caught in `fetchTestCase` — it propagates, so
the claim that no failure reason can surface an error is false. -/
theorem fetchTestCase_thrown_error_propagates :
    fetchTestCase (fun _ _ => RemoteFetchOutcome.threw) [] "t" "c"
      = Except.error () := rfl

/-- C9 (amended): when the remote fetch *completes* (a parsed body or a
non-OK HTTP status), `fetchTestCase` never errors: a cache miss performs
one remote fetch, stores the result (the synthetic case with
`id = name = testCaseId` and empty tag set in the non-OK case), and a
second lookup of the same pair hits the cache with no further fetch — two
lookups, exactly one fetch. -/
theorem fetchTestCase_fallback_and_cache
    (remote : String → String → RemoteFetchOutcome)
    (cache : List (String × OctomindTestCase)) (t c : String)
    (h1 : cache.lookup (t ++ ":" ++ c) = none)
    (h2 : remote t c ≠ RemoteFetchOutcome.threw) :
    ∃ tc cache1,
      fetchTestCase remote cache t c = Except.ok (tc, cache1, true) ∧
      fetchTestCase remote cache1 t c = Except.ok (tc, cache1, false) ∧
      (remote t c = RemoteFetchOutcome.httpError →
        tc.id = c ∧ tc.name = c ∧ tc.tags = some []) := by
  cases hrem : remote t c with
  | threw => exact absurd hrem h2
  | ok tc0 =>
    refine ⟨tc0, (t ++ ":" ++ c, tc0) :: cache, ?_, ?_, ?_⟩
    · simp [fetchTestCase, h1, hrem]
    · simp [fetchTestCase, List.lookup]
    · intro h
      exact RemoteFetchOutcome.noConfusion h
  | httpError =>
    refine ⟨⟨c, c, none, some [], none⟩,
      (t ++ ":" ++ c, ⟨c, c, none, some [], none⟩) :: cache, ?_, ?_, ?_⟩
    · simp [fetchTestCase, h1, hrem]
    · simp [fetchTestCase, List.lookup]
    · intro _
      exact ⟨rfl, rfl, rfl⟩

/-- C9 witness: a failing (non-OK) fetch on an empty cache yields the
synthetic case and the second lookup is served from the cache. -/
theorem fetchTestCase_fallback_and_cache_witness :
    ∃ tc cache1,
      fetchTestCase (fun _ _ => RemoteFetchOutcome.httpError) [] "t" "c"
        = Except.ok (tc, cache1, true) ∧
      fetchTestCase (fun _ _ => RemoteFetchOutcome.httpError) cache1 "t" "c"
        = Except.ok (tc, cache1, false) ∧
      ((fun (_ _ : String) => RemoteFetchOutcome.httpError) "t" "c"
          = RemoteFetchOutcome.httpError →
        tc.id = "c" ∧ tc.name = "c" ∧ tc.tags = some []) :=
  fetchTestCase_fallback_and_cache (fun _ _ => RemoteFetchOutcome.httpError)
    [] "t" "c" rfl (by decide)

/-- C10 (confirmed): the translated record always carries a `steps`
list: the empty list when the source result has no steps field, and the
threaded translation of its steps otherwise. -/
theorem steps_field_defaults_to_nil (parseDate : String → Option Nat) (now : Nat)
    (uuid : String) (res : OctomindTestResult) (rep : OctomindTestReport)
    (tc : OctomindTestCase) (tt : OctomindTestTarget) :
    (res.steps = none →
      (convertTestResult parseDate now uuid res rep tc tt).steps = []) ∧
    (∀ l, res.steps = some l →
      (convertTestResult parseDate now uuid res rep tc tt).steps
        = convertSteps l (convertTestResult parseDate now uuid res rep tc tt).start) := by
  constructor
  · intro h
    simp [convertTestResult, h]
  · intro l h
    simp [convertTestResult, h]

/-- C10 witness: a result without steps translates to an empty steps
list; one with steps translates to the threaded steps. -/
theorem steps_field_defaults_to_nil_witness :
    (convertTestResult noParse 0 "u" fixtureResultNoDates fixtureReport
        fixtureCase fixtureTarget).steps = [] :=
  (steps_field_defaults_to_nil noParse 0 "u" fixtureResultNoDates fixtureReport
    fixtureCase fixtureTarget).1 rfl
